import Mathlib

/-!
Shallow embedding of `travel_recommendation.js` (TravelBloom search,
rendering and clock pipeline).  Strings are modelled as `List Char`;
possibly-absent JavaScript fields are modelled as `Option`; the DOM is
modelled as an explicit `UI` record and the interval timer as an explicit
`ClockState` record of installed repeating tasks.
-/

/-! ### Character and string primitives -/

/-- JavaScript whitespace (the class `\s`, also used by `String.prototype.trim`). -/
def isJsSpace (c : Char) : Bool :=
  c == ' ' || c == '\t' || c == '\n' || c == '\r' ||
  c == '\x0b' || c == '\x0c' ||
  c.toNat == 0xa0 || c.toNat == 0x1680 ||
  (decide (0x2000 ≤ c.toNat) && decide (c.toNat ≤ 0x200a)) ||
  c.toNat == 0x2028 || c.toNat == 0x2029 || c.toNat == 0x202f ||
  c.toNat == 0x205f || c.toNat == 0x3000 || c.toNat == 0xfeff

/-- JavaScript word character (the regex class `\w`). -/
def isWordChar (c : Char) : Bool :=
  c.isAlphanum || c == '_'

/-- Characters kept by the replace in `normalizeKeyword` (complement of `[^\w\s-]`). -/
def keepChar (c : Char) : Bool :=
  isWordChar c || isJsSpace c || c == '-'

/-- ASCII case folding, as `String.prototype.toLowerCase` acts on the
character range used by this application. -/
def jsToLower (c : Char) : Char :=
  if 65 ≤ c.toNat ∧ c.toNat ≤ 90 then Char.ofNat (c.toNat + 32) else c

/-- Lowercases a string (`.toLowerCase()`). -/
def lowerStr (l : List Char) : List Char :=
  l.map jsToLower

/-- Removes leading JavaScript whitespace. -/
def ltrim (l : List Char) : List Char :=
  l.dropWhile isJsSpace

/-- Removes trailing JavaScript whitespace. -/
def rtrim (l : List Char) : List Char :=
  (l.reverse.dropWhile isJsSpace).reverse

/-- `String.prototype.trim`. -/
def trimChars (l : List Char) : List Char :=
  rtrim (ltrim l)

/-- `String.prototype.split` with a one-character separator: `"".split(sep)`
is `[""]`, and every separator occurrence opens a new segment. -/
def jsSplit (sep : Char) : List Char → List (List Char)
  | [] => [[]]
  | c :: rest =>
    if c == sep then [] :: jsSplit sep rest
    else
      match jsSplit sep rest with
      | [] => [[c]]
      | h :: t => (c :: h) :: t

/-- `String.prototype.includes`: the needle occurs contiguously in the haystack. -/
def jsIncludes (needle haystack : List Char) : Bool :=
  haystack.tails.any (fun t => needle.isPrefixOf t)

/-- Insertion-ordered deduplication, as `Array.from(new Set(...))` (first
occurrence kept). -/
def dedupFirst (l : List (List Char)) : List (List Char) :=
  l.foldl (fun acc x => if x ∈ acc then acc else acc ++ [x]) []

/-- JavaScript `x || ''` on a possibly-absent string. -/
def orEmpty (o : Option (List Char)) : List Char :=
  o.getD []

/-- JavaScript truthiness of a possibly-absent string (`undefined`/`null` and
`''` are falsy). -/
def jsTruthyStr (o : Option (List Char)) : Bool :=
  match o with
  | none => false
  | some s => !s.isEmpty

/-- JavaScript truthiness of a possibly-null interval id (0 and `null` falsy). -/
def jsTruthyId (o : Option Nat) : Bool :=
  match o with
  | none => false
  | some n => n != 0

/-- Template-literal interpolation of a possibly-absent string
(an `undefined` field prints as "undefined"). -/
def jsTemplate (o : Option (List Char)) : List Char :=
  match o with
  | none => "undefined".data
  | some s => s

/-! ### Data model -/

/-- A place record from the JSON dataset (used for beaches, temples, cities);
every field may be absent. -/
structure Place where
  name : Option (List Char)
  description : Option (List Char)
  imageUrl : Option (List Char)
deriving DecidableEq

/-- A country record with its city list. -/
structure Country where
  name : Option (List Char)
  cities : Option (List Place)
deriving DecidableEq

/-- The fetched dataset; each top-level key may be absent. -/
structure Dataset where
  beaches : Option (List Place)
  temples : Option (List Place)
  countries : Option (List Country)
deriving DecidableEq

/-! ### Pure pipeline functions from the source -/

/-- `normalizeKeyword`: lowercase, delete every character outside `[\w\s-]`,
trim, then map the three known plurals to their singulars. -/
def normalizeKeyword (text : List Char) : List Char :=
  let t := trimChars ((lowerStr text).filter keepChar)
  if t = "beaches".data then "beach".data
  else if t = "temples".data then "temple".data
  else if t = "countries".data then "country".data
  else t

/-- `flattenAllCities`: one flat list of city objects from a country list
(the JavaScript non-array guard is enforced here by typing, and a country
whose `cities` field is not an array contributes the empty list). -/
def flattenAllCities (countries : List Country) : List Place :=
  countries.flatMap (fun c => c.cities.getD [])

/-- `getTimeZoneForCountry`: fixed three-entry lookup on the lowercased,
trimmed country name; `none` models the JavaScript `null` result. -/
def getTimeZoneForCountry (countryName : Option (List Char)) : Option (List Char) :=
  let key := trimChars (lowerStr (orEmpty countryName))
  if key = "australia".data then some "Australia/Sydney".data
  else if key = "japan".data then some "Asia/Tokyo".data
  else if key = "brazil".data then some "America/Sao_Paulo".data
  else none

/-- `getTimeZonesForCountries`: trim the names, drop the falsy ones,
deduplicate preserving first occurrence, pair each with its timezone and
keep only the configured ones. -/
def getTimeZonesForCountries (countryNames : List (Option (List Char))) :
    List (List Char × List Char) :=
  let unique := dedupFirst
    ((countryNames.map (fun n => trimChars (orEmpty n))).filter (fun s => !s.isEmpty))
  unique.filterMap (fun name => (getTimeZoneForCountry (some name)).map (fun tz => (name, tz)))

/-- `inferCountryFromCityName`: trim, split on commas; with fewer than two
segments return `null` (`none`), otherwise the trailing segment trimmed
(which may be the empty string, modelled as `some []`). -/
def inferCountryFromCityName (cityName : Option (List Char)) : Option (List Char) :=
  let text := trimChars (orEmpty cityName)
  let parts := jsSplit ',' text
  if parts.length < 2 then none
  else some (trimChars (parts.getLastD []))

/-! ### UI, clock and application state -/

/-- Content of the time box, by which code path produced it (the wall-clock
time string itself is a function of real time and is abstracted away). -/
inductive TimeMsg where
  | notConfigured (countryName : List Char)
  | singleTime (countryName : List Char) (timeZone : List Char)
  | multiTime (tzList : List (List Char × List Char))
deriving DecidableEq

/-- One rendered recommendation card. -/
structure Card where
  badge : List Char
  title : List Char
  description : List Char
  imageUrl : List Char
deriving DecidableEq

/-- The DOM surface touched by the pipeline: search input, card container,
empty-state box (`none` = hidden), results header (`none` = hidden,
otherwise raw query, match count and category label), time box. -/
structure UI where
  searchInput : List Char
  results : List Card
  emptyMsg : Option (List Char)
  header : Option (List Char × Nat × Option (List Char))
  timeBox : Option TimeMsg
deriving DecidableEq

/-- The interval-timer state: a fresh-id counter, the multiset of installed
repeating tasks, and the `clockIntervalId` variable. -/
structure ClockState where
  nextId : Nat
  active : List Nat
  handle : Option Nat
deriving DecidableEq

/-- The whole application state: `apiData`, the timer state and the DOM. -/
structure AppState where
  apiData : Option Dataset
  clock : ClockState
  ui : UI
deriving DecidableEq

/-- `setTimeBox` (passing `none` hides and clears the box). -/
def setTimeBox (message : Option TimeMsg) (s : AppState) : AppState :=
  { s with ui := { s.ui with timeBox := message } }

/-- `setResultsHeader`: falsy query hides the header, otherwise it shows
query, count and category label. -/
def setResultsHeader (queryRaw : Option (List Char)) (totalFound : Nat)
    (categoryLabel : Option (List Char)) (s : AppState) : AppState :=
  if jsTruthyStr queryRaw then
    { s with ui := { s.ui with header := some (orEmpty queryRaw, totalFound, categoryLabel) } }
  else
    { s with ui := { s.ui with header := none } }

/-- `renderEmpty`: clear the cards and show the message in the empty-state box. -/
def renderEmpty (message : List Char) (s : AppState) : AppState :=
  { s with ui := { s.ui with results := [], emptyMsg := some message } }

/-- Builds one card as `renderRecommendations` does, with the three
falsy-field fallbacks. -/
def mkCard (badgeLabel : List Char) (item : Place) : Card :=
  { badge := badgeLabel
    title := if jsTruthyStr item.name then orEmpty item.name else "Unknown Place".data
    description :=
      if jsTruthyStr item.description then orEmpty item.description
      else "No description available.".data
    imageUrl :=
      if jsTruthyStr item.imageUrl then orEmpty item.imageUrl
      else "images/placeholder.jpg".data }

/-- `renderRecommendations`: clear, then either the empty-state message or
`items.slice(0, Math.max(2, Math.min(items.length, 6)))` rendered as cards. -/
def renderRecommendations (items : List Place) (badgeLabel : List Char)
    (s : AppState) : AppState :=
  let s := { s with ui := { s.ui with results := [], emptyMsg := none } }
  if items.isEmpty then
    renderEmpty "No recommendations found for that search.".data s
  else
    let maxToShow := min items.length 6
    let toShow := items.take (max 2 maxToShow)
    { s with ui := { s.ui with results := toShow.map (mkCard badgeLabel) } }

/-- `stopClock`: if `clockIntervalId` is truthy, cancel that repeating task
and null the variable. -/
def stopClock (s : AppState) : AppState :=
  if jsTruthyId s.clock.handle then
    { s with clock :=
      { s.clock with
        active := s.clock.active.erase (s.clock.handle.getD 0)
        handle := none } }
  else s

/-- `updateSingleClock`: recompute and display the single-country time line. -/
def updateSingleClock (countryName : Option (List Char)) (timeZone : List Char)
    (s : AppState) : AppState :=
  setTimeBox (some (.singleTime (jsTemplate countryName) timeZone)) s

/-- `setInterval`: install a fresh repeating task and store its id in
`clockIntervalId` (browser interval ids are positive). -/
def installInterval (s : AppState) : AppState :=
  { s with clock :=
    { nextId := s.clock.nextId + 1
      active := s.clock.active ++ [s.clock.nextId]
      handle := some s.clock.nextId } }

/-- `startSingleClock`: stop any running clock; with a falsy timezone show
the not-configured message, otherwise display and install the interval. -/
def startSingleClock (countryName : Option (List Char)) (timeZone : Option (List Char))
    (s : AppState) : AppState :=
  let s := stopClock s
  if jsTruthyStr timeZone then
    installInterval (updateSingleClock countryName (orEmpty timeZone) s)
  else
    setTimeBox (some (.notConfigured (jsTemplate countryName))) s

/-- `updateMultiClock`: recompute and display the multi-country time lines. -/
def updateMultiClock (tzList : List (List Char × List Char)) (s : AppState) : AppState :=
  setTimeBox (some (.multiTime tzList)) s

/-- `startMultiClock`: stop any running clock; with an empty list clear the
box, otherwise display and install the interval. -/
def startMultiClock (tzList : List (List Char × List Char)) (s : AppState) : AppState :=
  let s := stopClock s
  if tzList.isEmpty then setTimeBox none s
  else installInterval (updateMultiClock tzList s)

/-- `clearResults`: clear input, cards, empty box and header, stop the clock
and clear the time box. -/
def clearResults (s : AppState) : AppState :=
  let s := { s with ui := { s.ui with searchInput := [], results := [], emptyMsg := none } }
  let s := setResultsHeader none 0 none s
  let s := stopClock s
  setTimeBox none s

/-! ### The search pipeline -/

/-- Message shown for a blank query. -/
def emptyQueryMsg : List Char :=
  "Type a keyword like \"beach\", \"temple\", \"country\", or a country/city name.".data

/-- Message shown while the dataset has not loaded. -/
def loadingMsg : List Char :=
  "Data is still loading. Try again in a moment.".data

/-- Message shown when no tier matches. -/
def noMatchMsg : List Char :=
  "No matches found. Try \"beach\", \"temple\", \"country\", or a country/city name.".data

/-- Message shown when the dataset fetch fails. -/
def fetchErrorMsg : List Char :=
  "Unable to load recommendation data. Check your JSON file path (and use Live Server).".data

/-- The first country whose lowercased name equals the keyword
(the tier-4 search in `handleSearch`). -/
def findExactCountry (d : Dataset) (keyword : List Char) : Option Country :=
  (d.countries.getD []).find? (fun c => lowerStr (orEmpty c.name) == keyword)

/-- The first country whose lowercased name contains the keyword
(the tier-5 search in `handleSearch`). -/
def findSubstrCountry (d : Dataset) (keyword : List Char) : Option Country :=
  (d.countries.getD []).find? (fun c => jsIncludes keyword (lowerStr (orEmpty c.name)))

/-- All cities whose lowercased name contains the keyword
(the tier-6 filter in `handleSearch`). -/
def matchedCityList (d : Dataset) (keyword : List Char) : List Place :=
  (flattenAllCities (d.countries.getD [])).filter
    (fun city => jsIncludes keyword (lowerStr (orEmpty city.name)))

/-- Which branch of `handleSearch` fires, with the data that branch computes.
The constructors are in the source's evaluation order. -/
inductive SearchResult where
  | emptyQuery
  | stillLoading
  | beachesTier (list : List Place)
  | templesTier (list : List Place)
  | countriesTier (allCities : List Place) (tzList : List (List Char × List Char))
  | exactCountryTier (c : Country)
  | substrCountryTier (c : Country)
  | cityTier (matched : List Place)
  | noMatchTier
deriving DecidableEq

/-- The branch-selection logic of `handleSearch`, on the already-trimmed raw
query: guard chain, keyword tiers, exact country, substring country,
substring city, no match. -/
def resolveSearch (raw : List Char) (data : Option Dataset) : SearchResult :=
  if raw.isEmpty then .emptyQuery
  else
    match data with
    | none => .stillLoading
    | some d =>
      let keyword := normalizeKeyword raw
      if keyword = "beach".data then .beachesTier (d.beaches.getD [])
      else if keyword = "temple".data then .templesTier (d.temples.getD [])
      else if keyword = "country".data then
        .countriesTier (flattenAllCities (d.countries.getD []))
          (getTimeZonesForCountries ((d.countries.getD []).map (fun c => c.name)))
      else
        match findExactCountry d keyword with
        | some c => .exactCountryTier c
        | none =>
          match findSubstrCountry d keyword with
          | some c => .substrCountryTier c
          | none =>
            let matched := matchedCityList d keyword
            if matched.isEmpty then .noMatchTier else .cityTier matched

/-- Placeholder for indexing `matchedCities[0]`; the city tier is only
entered with a non-empty match list, so it is never observed. -/
def defaultPlace : Place := ⟨none, none, none⟩

/-- The effects each `handleSearch` branch performs, in source order. -/
def applySearch (raw : List Char) (r : SearchResult) (s : AppState) : AppState :=
  match r with
  | .emptyQuery =>
    let s := stopClock s
    let s := setTimeBox none s
    let s := setResultsHeader none 0 none s
    renderEmpty emptyQueryMsg s
  | .stillLoading =>
    let s := stopClock s
    let s := setTimeBox none s
    let s := setResultsHeader none 0 none s
    renderEmpty loadingMsg s
  | .beachesTier list =>
    let s := stopClock s
    let s := setTimeBox none s
    let s := setResultsHeader (some raw) list.length (some "Beaches".data) s
    renderRecommendations list "Beaches".data s
  | .templesTier list =>
    let s := stopClock s
    let s := setTimeBox none s
    let s := setResultsHeader (some raw) list.length (some "Temples".data) s
    renderRecommendations list "Temples".data s
  | .countriesTier allCities tzList =>
    let s := setResultsHeader (some raw) allCities.length (some "Countries (Cities)".data) s
    let s := renderRecommendations allCities "Countries".data s
    startMultiClock tzList s
  | .exactCountryTier c =>
    let cities := c.cities.getD []
    let s := setResultsHeader (some raw) cities.length
      (some (jsTemplate c.name ++ " (Cities)".data)) s
    let s := renderRecommendations cities (jsTemplate c.name) s
    startSingleClock c.name (getTimeZoneForCountry c.name) s
  | .substrCountryTier c =>
    let cities := c.cities.getD []
    let s := setResultsHeader (some raw) cities.length
      (some (jsTemplate c.name ++ " (Cities)".data)) s
    let s := renderRecommendations cities (jsTemplate c.name) s
    startSingleClock c.name (getTimeZoneForCountry c.name) s
  | .cityTier matched =>
    let s := setResultsHeader (some raw) matched.length (some "City Results".data) s
    let s := renderRecommendations matched "City".data s
    let inferredCountry := inferCountryFromCityName (matched.headD defaultPlace).name
    if jsTruthyStr inferredCountry then
      startSingleClock inferredCountry (getTimeZoneForCountry inferredCountry) s
    else
      setTimeBox none (stopClock s)
  | .noMatchTier =>
    let s := stopClock s
    let s := setTimeBox none s
    let s := setResultsHeader (some raw) 0 none s
    renderEmpty noMatchMsg s

/-- `handleSearch`: trim the input, pick the branch, perform its effects. -/
def handleSearch (inputValue : List Char) (s : AppState) : AppState :=
  let raw := trimChars inputValue
  applySearch raw (resolveSearch raw s.apiData) s

/-- Outcome of the one-time dataset fetch. -/
inductive FetchOutcome where
  | ok (d : Dataset)
  | err
deriving DecidableEq

/-- `fetchApiData`: on success store the dataset; on failure only show the
error message (`apiData` stays as it was). -/
def fetchApiData (o : FetchOutcome) (s : AppState) : AppState :=
  match o with
  | .ok d => { s with apiData := some d }
  | .err => renderEmpty fetchErrorMsg s

/-- The user-facing operations that drive the application. -/
inductive Op where
  | fetch (o : FetchOutcome)
  | search (inputValue : List Char)
  | reset
deriving DecidableEq

/-- One event-loop step. -/
def step (s : AppState) : Op → AppState
  | .fetch o => fetchApiData o s
  | .search v => handleSearch v s
  | .reset => clearResults s

/-- The DOM at startup. -/
def initUI : UI := ⟨[], [], none, none, none⟩

/-- The timer state at startup: no task, no handle, ids from 1. -/
def initClock : ClockState := ⟨1, [], none⟩

/-- The application state at startup (`apiData = null`). -/
def initState : AppState := ⟨none, initClock, initUI⟩

/-- The state reached by a sequence of operations from startup. -/
def runOps (ops : List Op) : AppState :=
  ops.foldl step initState

/-- Well-formedness of the timer state: the installed tasks are exactly the
one the handle points to, and ids are positive. -/
def ClockOK (c : ClockState) : Prop :=
  c.active = c.handle.toList ∧ 1 ≤ c.nextId ∧ ∀ i ∈ c.active, 1 ≤ i

instance (c : ClockState) : Decidable (ClockOK c) := by
  unfold ClockOK; infer_instance

/-! ### Projection lemmas for the state operations -/

@[simp]
theorem setTimeBox_clock (m : Option TimeMsg) (s : AppState) :
    (setTimeBox m s).clock = s.clock := rfl

@[simp]
theorem setTimeBox_apiData (m : Option TimeMsg) (s : AppState) :
    (setTimeBox m s).apiData = s.apiData := rfl

@[simp]
theorem setResultsHeader_clock (q : Option (List Char)) (n : Nat)
    (lab : Option (List Char)) (s : AppState) :
    (setResultsHeader q n lab s).clock = s.clock := by
  unfold setResultsHeader; split <;> rfl

@[simp]
theorem setResultsHeader_apiData (q : Option (List Char)) (n : Nat)
    (lab : Option (List Char)) (s : AppState) :
    (setResultsHeader q n lab s).apiData = s.apiData := by
  unfold setResultsHeader; split <;> rfl

@[simp]
theorem renderEmpty_clock (m : List Char) (s : AppState) :
    (renderEmpty m s).clock = s.clock := rfl

@[simp]
theorem renderEmpty_apiData (m : List Char) (s : AppState) :
    (renderEmpty m s).apiData = s.apiData := rfl

@[simp]
theorem renderRecommendations_clock (items : List Place) (b : List Char) (s : AppState) :
    (renderRecommendations items b s).clock = s.clock := by
  unfold renderRecommendations; split <;> rfl

@[simp]
theorem renderRecommendations_apiData (items : List Place) (b : List Char) (s : AppState) :
    (renderRecommendations items b s).apiData = s.apiData := by
  unfold renderRecommendations; split <;> rfl

@[simp]
theorem stopClock_ui (s : AppState) : (stopClock s).ui = s.ui := by
  unfold stopClock; split <;> rfl

@[simp]
theorem stopClock_apiData (s : AppState) : (stopClock s).apiData = s.apiData := by
  unfold stopClock; split <;> rfl

@[simp]
theorem installInterval_ui (s : AppState) : (installInterval s).ui = s.ui := rfl

@[simp]
theorem updateSingleClock_clock (n : Option (List Char)) (tz : List Char) (s : AppState) :
    (updateSingleClock n tz s).clock = s.clock := rfl

@[simp]
theorem updateMultiClock_clock (l : List (List Char × List Char)) (s : AppState) :
    (updateMultiClock l s).clock = s.clock := rfl

/-! ### Clock-state lemmas -/

theorem stopClock_clock (s : AppState) (h : ClockOK s.clock) :
    (stopClock s).clock = ⟨s.clock.nextId, [], none⟩ := by
  obtain ⟨hact, -, hpos⟩ := h
  unfold stopClock
  cases hh : s.clock.handle with
  | none =>
      rw [hh] at hact
      simp only [jsTruthyId, hh]
      cases hs : s.clock with
      | mk n a h' => simp_all
  | some i =>
      rw [hh] at hact
      have hi : 1 ≤ i := hpos i (by simp [hact])
      have : jsTruthyId (some i) = true := by
        simp [jsTruthyId]; omega
      simp only [hh, this, if_pos]
      simp [hact, hh]

theorem clockOK_stopClock (s : AppState) (h : ClockOK s.clock) :
    ClockOK (stopClock s).clock := by
  rw [stopClock_clock s h]
  exact ⟨rfl, h.2.1, by simp⟩

theorem startSingleClock_clock (n : Option (List Char)) (tz : Option (List Char))
    (s : AppState) (h : ClockOK s.clock) :
    (startSingleClock n tz s).clock =
      if jsTruthyStr tz then
        ⟨s.clock.nextId + 1, [s.clock.nextId], some s.clock.nextId⟩
      else ⟨s.clock.nextId, [], none⟩ := by
  unfold startSingleClock
  split <;>
    simp [installInterval, stopClock_clock s h]

theorem startMultiClock_clock (tzl : List (List Char × List Char))
    (s : AppState) (h : ClockOK s.clock) :
    (startMultiClock tzl s).clock =
      if tzl.isEmpty then ⟨s.clock.nextId, [], none⟩
      else ⟨s.clock.nextId + 1, [s.clock.nextId], some s.clock.nextId⟩ := by
  unfold startMultiClock
  split <;>
    simp [installInterval, stopClock_clock s h]

theorem clockOK_startSingleClock (n : Option (List Char)) (tz : Option (List Char))
    (s : AppState) (h : ClockOK s.clock) :
    ClockOK (startSingleClock n tz s).clock := by
  rw [startSingleClock_clock n tz s h]
  have h1 := h.2.1
  split
  · exact ⟨rfl, Nat.le_succ_of_le h1, fun i hi => (List.mem_singleton.mp hi) ▸ h1⟩
  · exact ⟨rfl, h1, fun i hi => absurd hi (List.not_mem_nil i)⟩

theorem clockOK_startMultiClock (tzl : List (List Char × List Char))
    (s : AppState) (h : ClockOK s.clock) :
    ClockOK (startMultiClock tzl s).clock := by
  rw [startMultiClock_clock tzl s h]
  have h1 := h.2.1
  split
  · exact ⟨rfl, h1, fun i hi => absurd hi (List.not_mem_nil i)⟩
  · exact ⟨rfl, Nat.le_succ_of_le h1, fun i hi => (List.mem_singleton.mp hi) ▸ h1⟩

theorem clockOK_applySearch (raw : List Char) (r : SearchResult) (s : AppState)
    (h : ClockOK s.clock) :
    ClockOK (applySearch raw r s).clock := by
  cases r <;> simp only [applySearch]
  case emptyQuery => simpa using clockOK_stopClock s h
  case stillLoading => simpa using clockOK_stopClock s h
  case beachesTier l => simpa using clockOK_stopClock s h
  case templesTier l => simpa using clockOK_stopClock s h
  case countriesTier a t =>
      exact clockOK_startMultiClock t _ (by simpa using h)
  case exactCountryTier c =>
      exact clockOK_startSingleClock c.name _ _ (by simpa using h)
  case substrCountryTier c =>
      exact clockOK_startSingleClock c.name _ _ (by simpa using h)
  case cityTier m =>
      split
      · exact clockOK_startSingleClock _ _ _ (by simpa using h)
      · have h' : ClockOK ((renderRecommendations m ("City".data)
            (setResultsHeader (some raw) m.length (some ("City Results".data)) s))).clock := by
          simpa using h
        simpa using clockOK_stopClock _ h'
  case noMatchTier => simpa using clockOK_stopClock s h

theorem clockOK_handleSearch (v : List Char) (s : AppState) (h : ClockOK s.clock) :
    ClockOK (handleSearch v s).clock :=
  clockOK_applySearch _ _ s h

theorem clockOK_clearResults (s : AppState) (h : ClockOK s.clock) :
    ClockOK (clearResults s).clock := by
  unfold clearResults
  simpa using clockOK_stopClock (setResultsHeader none 0 none _) (by simpa using h)

theorem clockOK_step (s : AppState) (op : Op) (h : ClockOK s.clock) :
    ClockOK (step s op).clock := by
  cases op with
  | fetch o =>
      cases o with
      | ok d => exact h
      | err => simpa [step, fetchApiData] using h
  | search v => exact clockOK_handleSearch v s h
  | reset => exact clockOK_clearResults s h

theorem clockOK_foldl (ops : List Op) (s : AppState) (h : ClockOK s.clock) :
    ClockOK (ops.foldl step s).clock := by
  induction ops generalizing s with
  | nil => exact h
  | cons op rest ih => exact ih (step s op) (clockOK_step s op h)

theorem clockOK_active_length (c : ClockState) (h : ClockOK c) :
    c.active.length ≤ 1 := by
  rw [h.1]; cases c.handle <;> simp

/-- C3: at every reachable state there is at most one active repeating clock
task; every clock-start operation first cancels any existing repeating task,
so it leaves at most one task, and a start with a truthy timezone (or a
non-empty timezone list) leaves exactly one active repeating task. -/
theorem clock_single_task_invariant :
    (∀ ops : List Op, ClockOK (runOps ops).clock ∧ (runOps ops).clock.active.length ≤ 1)
    ∧ (∀ (s : AppState) (n : Option (List Char)) (tz : Option (List Char)),
        ClockOK s.clock →
          (startSingleClock n tz s).clock.active.length ≤ 1
          ∧ (jsTruthyStr tz = true → (startSingleClock n tz s).clock.active.length = 1))
    ∧ (∀ (s : AppState) (tzl : List (List Char × List Char)),
        ClockOK s.clock →
          (startMultiClock tzl s).clock.active.length ≤ 1
          ∧ (tzl ≠ [] → (startMultiClock tzl s).clock.active.length = 1)) := by
  refine ⟨?_, ?_, ?_⟩
  · intro ops
    have h : ClockOK (runOps ops).clock :=
      clockOK_foldl ops initState ⟨rfl, by decide, by simp [initState, initClock]⟩
    exact ⟨h, clockOK_active_length _ h⟩
  · intro s n tz h
    rw [startSingleClock_clock n tz s h]
    constructor
    · split <;> simp
    · intro ht; simp [ht]
  · intro s tzl h
    rw [startMultiClock_clock tzl s h]
    constructor
    · split <;> simp
    · intro ht
      have : tzl.isEmpty = false := by
        cases tzl with
        | nil => exact absurd rfl ht
        | cons a l => rfl
      simp [this]

/-- Witness for C3 at a concrete state and timezone. -/
theorem clock_single_task_invariant_witness :
    (startSingleClock (some "Japan".data) (some "Asia/Tokyo".data) initState).clock.active.length = 1
    ∧ (startMultiClock [("Japan".data, "Asia/Tokyo".data)] initState).clock.active.length = 1 :=
  ⟨(clock_single_task_invariant.2.1 initState (some "Japan".data) (some "Asia/Tokyo".data)
      (by decide)).2 (by decide),
   (clock_single_task_invariant.2.2 initState [("Japan".data, "Asia/Tokyo".data)]
      (by decide)).2 (by decide)⟩

/-! ### UI field lemmas -/

@[simp]
theorem renderEmpty_results (m : List Char) (s : AppState) :
    (renderEmpty m s).ui.results = [] := rfl

@[simp]
theorem renderEmpty_emptyMsg (m : List Char) (s : AppState) :
    (renderEmpty m s).ui.emptyMsg = some m := rfl

@[simp]
theorem renderEmpty_header (m : List Char) (s : AppState) :
    (renderEmpty m s).ui.header = s.ui.header := rfl

@[simp]
theorem renderEmpty_timeBox (m : List Char) (s : AppState) :
    (renderEmpty m s).ui.timeBox = s.ui.timeBox := rfl

@[simp]
theorem setTimeBox_timeBox (m : Option TimeMsg) (s : AppState) :
    (setTimeBox m s).ui.timeBox = m := rfl

@[simp]
theorem setTimeBox_results (m : Option TimeMsg) (s : AppState) :
    (setTimeBox m s).ui.results = s.ui.results := rfl

@[simp]
theorem setTimeBox_emptyMsg (m : Option TimeMsg) (s : AppState) :
    (setTimeBox m s).ui.emptyMsg = s.ui.emptyMsg := rfl

@[simp]
theorem setTimeBox_header (m : Option TimeMsg) (s : AppState) :
    (setTimeBox m s).ui.header = s.ui.header := rfl

@[simp]
theorem setResultsHeader_results (q : Option (List Char)) (n : Nat)
    (lab : Option (List Char)) (s : AppState) :
    (setResultsHeader q n lab s).ui.results = s.ui.results := by
  unfold setResultsHeader; split <;> rfl

@[simp]
theorem setResultsHeader_emptyMsg (q : Option (List Char)) (n : Nat)
    (lab : Option (List Char)) (s : AppState) :
    (setResultsHeader q n lab s).ui.emptyMsg = s.ui.emptyMsg := by
  unfold setResultsHeader; split <;> rfl

@[simp]
theorem setResultsHeader_timeBox (q : Option (List Char)) (n : Nat)
    (lab : Option (List Char)) (s : AppState) :
    (setResultsHeader q n lab s).ui.timeBox = s.ui.timeBox := by
  unfold setResultsHeader; split <;> rfl

@[simp]
theorem setResultsHeader_none_header (n : Nat) (lab : Option (List Char)) (s : AppState) :
    (setResultsHeader none n lab s).ui.header = none := rfl

theorem setResultsHeader_some_header (q : List Char) (n : Nat)
    (lab : Option (List Char)) (s : AppState) (hq : q ≠ []) :
    (setResultsHeader (some q) n lab s).ui.header = some (q, n, lab) := by
  have : jsTruthyStr (some q) = true := by
    simp [jsTruthyStr, List.isEmpty_iff, hq]
  unfold setResultsHeader
  rw [this]
  rfl

@[simp]
theorem renderRecommendations_header (items : List Place) (b : List Char) (s : AppState) :
    (renderRecommendations items b s).ui.header = s.ui.header := by
  unfold renderRecommendations; split <;> rfl

@[simp]
theorem renderRecommendations_timeBox (items : List Place) (b : List Char) (s : AppState) :
    (renderRecommendations items b s).ui.timeBox = s.ui.timeBox := by
  unfold renderRecommendations; split <;> rfl

@[simp]
theorem startSingleClock_header (n : Option (List Char)) (tz : Option (List Char))
    (s : AppState) :
    (startSingleClock n tz s).ui.header = s.ui.header := by
  unfold startSingleClock updateSingleClock; split <;> simp

@[simp]
theorem startSingleClock_results (n : Option (List Char)) (tz : Option (List Char))
    (s : AppState) :
    (startSingleClock n tz s).ui.results = s.ui.results := by
  unfold startSingleClock updateSingleClock; split <;> simp

@[simp]
theorem startSingleClock_emptyMsg (n : Option (List Char)) (tz : Option (List Char))
    (s : AppState) :
    (startSingleClock n tz s).ui.emptyMsg = s.ui.emptyMsg := by
  unfold startSingleClock updateSingleClock; split <;> simp

@[simp]
theorem startMultiClock_header (tzl : List (List Char × List Char)) (s : AppState) :
    (startMultiClock tzl s).ui.header = s.ui.header := by
  unfold startMultiClock updateMultiClock; split <;> simp

@[simp]
theorem startMultiClock_results (tzl : List (List Char × List Char)) (s : AppState) :
    (startMultiClock tzl s).ui.results = s.ui.results := by
  unfold startMultiClock updateMultiClock; split <;> simp

@[simp]
theorem startMultiClock_emptyMsg (tzl : List (List Char × List Char)) (s : AppState) :
    (startMultiClock tzl s).ui.emptyMsg = s.ui.emptyMsg := by
  unfold startMultiClock updateMultiClock; split <;> simp

/-- C2: the renderer shows 1 card for a single result, `count` cards for 2—6
results, 6 cards for more, and for an empty list the empty-state message
(whose lowercased text contains "no recommendations found") instead of
cards. -/
theorem renderer_card_count :
    (∀ (items : List Place) (b : List Char) (s : AppState),
      (items.length = 1 → (renderRecommendations items b s).ui.results.length = 1)
      ∧ (2 ≤ items.length → items.length ≤ 6 →
          (renderRecommendations items b s).ui.results.length = items.length)
      ∧ (6 < items.length → (renderRecommendations items b s).ui.results.length = 6)
      ∧ (items = [] →
          (renderRecommendations items b s).ui.results = []
          ∧ (renderRecommendations items b s).ui.emptyMsg =
              some "No recommendations found for that search.".data))
    ∧ jsIncludes "no recommendations found".data
        (lowerStr "No recommendations found for that search.".data) = true := by
  refine ⟨?_, by decide⟩
  intro items b s
  have hlen : items.isEmpty = false →
      (renderRecommendations items b s).ui.results.length =
        min (max 2 (min items.length 6)) items.length := by
    intro hne
    simp [renderRecommendations, hne]
  refine ⟨?_, ?_, ?_, ?_⟩
  · intro h1
    have hne : items.isEmpty = false := by
      cases items with
      | nil => simp at h1
      | cons a l => rfl
    rw [hlen hne, h1]
    omega
  · intro h2 h6
    have hne : items.isEmpty = false := by
      cases items with
      | nil => simp at h2
      | cons a l => rfl
    rw [hlen hne]; omega
  · intro h6
    have hne : items.isEmpty = false := by
      cases items with
      | nil => simp at h6
      | cons a l => rfl
    rw [hlen hne]; omega
  · intro hnil
    subst hnil
    constructor <;> simp [renderRecommendations]

/-- Witness for C2 at concrete result lists of length 1 and 7. -/
theorem renderer_card_count_witness :
    (renderRecommendations [defaultPlace] [] initState).ui.results.length = 1
    ∧ (renderRecommendations
        [defaultPlace, defaultPlace, defaultPlace, defaultPlace,
         defaultPlace, defaultPlace, defaultPlace] [] initState).ui.results.length = 6 :=
  ⟨(renderer_card_count.1 [defaultPlace] [] initState).1 (by decide),
   (renderer_card_count.1 [defaultPlace, defaultPlace, defaultPlace, defaultPlace,
      defaultPlace, defaultPlace, defaultPlace] [] initState).2.2.1 (by decide)⟩

/-- C5: a raw query that trims to nothing is rejected before any tier runs:
the guidance message is shown, no cards are rendered, the header is hidden,
the time box is cleared, and (in any well-formed timer state) the running
clock task is cancelled. -/
theorem empty_query_rejected :
    ∀ (input : List Char) (s : AppState), trimChars input = [] →
      resolveSearch (trimChars input) s.apiData = .emptyQuery
      ∧ (handleSearch input s).ui.emptyMsg = some emptyQueryMsg
      ∧ (handleSearch input s).ui.results = []
      ∧ (handleSearch input s).ui.header = none
      ∧ (handleSearch input s).ui.timeBox = none
      ∧ (ClockOK s.clock →
          (handleSearch input s).clock.handle = none
          ∧ (handleSearch input s).clock.active = []) := by
  intro input s h
  have hres : resolveSearch (trimChars input) s.apiData = .emptyQuery := by
    rw [h]; rfl
  have hh : handleSearch input s =
      renderEmpty emptyQueryMsg
        (setResultsHeader none 0 none (setTimeBox none (stopClock s))) := by
    show applySearch (trimChars input) (resolveSearch (trimChars input) s.apiData) s = _
    rw [hres]
    rfl
  refine ⟨hres, ?_, ?_, ?_, ?_, ?_⟩
  · rw [hh]; simp
  · rw [hh]; simp
  · rw [hh]; simp
  · rw [hh]; simp
  · intro hok
    rw [hh]
    have := stopClock_clock s hok
    simp [this]

/-- Witness for C5 on the all-blank query. -/
theorem empty_query_rejected_witness :
    (handleSearch "   ".data initState).ui.emptyMsg = some emptyQueryMsg
    ∧ (handleSearch "   ".data initState).ui.header = none :=
  ⟨(empty_query_rejected "   ".data initState (by decide)).2.1,
   (empty_query_rejected "   ".data initState (by decide)).2.2.2.1⟩

/-- C6: a non-empty query against an unloaded dataset is rejected with the
distinct loading message and no tier is evaluated; a fetch failure shows the
empty-state error message and leaves `apiData` unchanged, so searches after
a failed fetch still fail the loading check. -/
theorem dataset_not_loaded_rejected :
    (∀ (input : List Char) (s : AppState), s.apiData = none → trimChars input ≠ [] →
      resolveSearch (trimChars input) s.apiData = .stillLoading
      ∧ (handleSearch input s).ui.emptyMsg = some loadingMsg
      ∧ (handleSearch input s).ui.results = []
      ∧ (handleSearch input s).ui.header = none
      ∧ (handleSearch input s).apiData = none)
    ∧ (∀ s : AppState,
        (fetchApiData .err s).apiData = s.apiData
        ∧ (fetchApiData .err s).ui.emptyMsg = some fetchErrorMsg
        ∧ (fetchApiData .err s).ui.results = [])
    ∧ (∀ input : List Char, trimChars input ≠ [] →
        (handleSearch input (fetchApiData .err initState)).ui.emptyMsg = some loadingMsg) := by
  have hA : ∀ (input : List Char) (s : AppState), s.apiData = none → trimChars input ≠ [] →
      resolveSearch (trimChars input) s.apiData = .stillLoading
      ∧ (handleSearch input s).ui.emptyMsg = some loadingMsg
      ∧ (handleSearch input s).ui.results = []
      ∧ (handleSearch input s).ui.header = none
      ∧ (handleSearch input s).apiData = none := by
    intro input s hdata hne
    have hraw : (trimChars input).isEmpty = false := by
      cases htr : trimChars input with
      | nil => exact absurd htr hne
      | cons a l => rfl
    have hres : resolveSearch (trimChars input) s.apiData = .stillLoading := by
      rw [hdata]
      unfold resolveSearch
      rw [hraw]
      rfl
    have hh : handleSearch input s =
        renderEmpty loadingMsg
          (setResultsHeader none 0 none (setTimeBox none (stopClock s))) := by
      show applySearch (trimChars input) (resolveSearch (trimChars input) s.apiData) s = _
      rw [hres]
      rfl
    refine ⟨hres, ?_, ?_, ?_, ?_⟩
    · rw [hh]; simp
    · rw [hh]; simp
    · rw [hh]; simp
    · rw [hh]; simp [hdata]
  refine ⟨hA, ?_, ?_⟩
  · intro s
    exact ⟨rfl, rfl, rfl⟩
  · intro input hne
    exact (hA input (fetchApiData .err initState) rfl hne).2.1

/-- Witness for C6 at the concrete query "beach" against the startup state. -/
theorem dataset_not_loaded_rejected_witness :
    (handleSearch "beach".data initState).ui.emptyMsg = some loadingMsg
    ∧ (handleSearch "beach".data (fetchApiData .err initState)).ui.emptyMsg = some loadingMsg :=
  ⟨(dataset_not_loaded_rejected.1 "beach".data initState rfl (by decide)).2.1,
   dataset_not_loaded_rejected.2.2 "beach".data (by decide)⟩

/-! ### Branch characterization of the matcher -/

theorem normalizeKeyword_nil : normalizeKeyword [] = [] := by decide

theorem isEmpty_false_of_normalize_beach (raw : List Char)
    (hb : normalizeKeyword raw = "beach".data) : raw.isEmpty = false := by
  cases hr : raw with
  | nil => rw [hr] at hb; exact absurd hb (by decide)
  | cons a l => rfl

theorem resolveSearch_beachKw (raw : List Char) (d : Dataset)
    (hb : normalizeKeyword raw = "beach".data) :
    resolveSearch raw (some d) = .beachesTier (d.beaches.getD []) := by
  unfold resolveSearch
  rw [isEmpty_false_of_normalize_beach raw hb, hb]
  rfl

theorem resolveSearch_templeKw (raw : List Char) (d : Dataset)
    (hb : normalizeKeyword raw = "temple".data) :
    resolveSearch raw (some d) = .templesTier (d.temples.getD []) := by
  have hne : raw.isEmpty = false := by
    cases hr : raw with
    | nil => rw [hr] at hb; exact absurd hb (by decide)
    | cons a l => rfl
  unfold resolveSearch
  rw [hne, hb]
  rfl

theorem resolveSearch_countryKw (raw : List Char) (d : Dataset)
    (hb : normalizeKeyword raw = "country".data) :
    resolveSearch raw (some d) =
      .countriesTier (flattenAllCities (d.countries.getD []))
        (getTimeZonesForCountries ((d.countries.getD []).map (fun c => c.name))) := by
  have hne : raw.isEmpty = false := by
    cases hr : raw with
    | nil => rw [hr] at hb; exact absurd hb (by decide)
    | cons a l => rfl
  unfold resolveSearch
  rw [hne, hb]
  rfl

theorem resolveSearch_exactC (raw : List Char) (d : Dataset) (c : Country)
    (h1 : normalizeKeyword raw ≠ "beach".data)
    (h2 : normalizeKeyword raw ≠ "temple".data)
    (h3 : normalizeKeyword raw ≠ "country".data)
    (hne : raw.isEmpty = false)
    (hf : findExactCountry d (normalizeKeyword raw) = some c) :
    resolveSearch raw (some d) = .exactCountryTier c := by
  simp only [resolveSearch, hne]
  rw [if_neg h1, if_neg h2, if_neg h3, hf]
  rfl

theorem resolveSearch_substrC (raw : List Char) (d : Dataset) (c : Country)
    (h1 : normalizeKeyword raw ≠ "beach".data)
    (h2 : normalizeKeyword raw ≠ "temple".data)
    (h3 : normalizeKeyword raw ≠ "country".data)
    (hne : raw.isEmpty = false)
    (hfe : findExactCountry d (normalizeKeyword raw) = none)
    (hf : findSubstrCountry d (normalizeKeyword raw) = some c) :
    resolveSearch raw (some d) = .substrCountryTier c := by
  simp only [resolveSearch, hne]
  rw [if_neg h1, if_neg h2, if_neg h3, hfe, hf]
  rfl

theorem resolveSearch_cityT (raw : List Char) (d : Dataset)
    (h1 : normalizeKeyword raw ≠ "beach".data)
    (h2 : normalizeKeyword raw ≠ "temple".data)
    (h3 : normalizeKeyword raw ≠ "country".data)
    (hne : raw.isEmpty = false)
    (hfe : findExactCountry d (normalizeKeyword raw) = none)
    (hfs : findSubstrCountry d (normalizeKeyword raw) = none)
    (hm : (matchedCityList d (normalizeKeyword raw)).isEmpty = false) :
    resolveSearch raw (some d) = .cityTier (matchedCityList d (normalizeKeyword raw)) := by
  simp only [resolveSearch, hne]
  rw [if_neg h1, if_neg h2, if_neg h3, hfe, hfs, hm]
  rfl

theorem resolveSearch_noMatch (raw : List Char) (d : Dataset)
    (h1 : normalizeKeyword raw ≠ "beach".data)
    (h2 : normalizeKeyword raw ≠ "temple".data)
    (h3 : normalizeKeyword raw ≠ "country".data)
    (hne : raw.isEmpty = false)
    (hfe : findExactCountry d (normalizeKeyword raw) = none)
    (hfs : findSubstrCountry d (normalizeKeyword raw) = none)
    (hm : (matchedCityList d (normalizeKeyword raw)).isEmpty = true) :
    resolveSearch raw (some d) = .noMatchTier := by
  simp only [resolveSearch, hne]
  rw [if_neg h1, if_neg h2, if_neg h3, hfe, hfs, hm]
  rfl

/-- A result other than the two rejection guards: exactly one of the seven
match tiers fired. -/
def isTierResult : SearchResult → Bool
  | .emptyQuery => false
  | .stillLoading => false
  | _ => true

theorem isTierResult_resolveSearch (raw : List Char) (d : Dataset)
    (hne : raw.isEmpty = false) :
    isTierResult (resolveSearch raw (some d)) = true := by
  simp only [resolveSearch, hne]
  rw [if_neg (show ¬(false = true) by simp)]
  split
  · rfl
  · split
    · rfl
    · split
      · rfl
      · split
        · rfl
        · split
          · rfl
          · split <;> rfl

/-! ### Sample data for concrete instances -/

/-- Sample beach place. -/
def beachA : Place := ⟨some "Beach A".data, some "a beach".data, some "a.jpg".data⟩

/-- Sample beach place. -/
def beachB : Place := ⟨some "Beach B".data, none, none⟩

/-- Sample city of the sample Japan country. -/
def tokyoCity : Place := ⟨some "Tokyo, Japan".data, some "big".data, some "t.jpg".data⟩

/-- Sample city of the sample Japan country. -/
def kyotoCity : Place := ⟨some "Kyoto, Japan".data, none, none⟩

/-- Sample country whose name merely contains "japan" as a substring; listed
first so that dataset order alone would pick it. -/
def japanlandCountry : Country :=
  ⟨some "Japanland".data, some [⟨some "JL City, Japanland".data, none, none⟩]⟩

/-- Sample country named exactly "Japan". -/
def japanCountry : Country := ⟨some "Japan".data, some [tokyoCity, kyotoCity]⟩

/-- Sample dataset: the substring-only country precedes the exact one. -/
def sampleDataset : Dataset :=
  ⟨some [beachA, beachB], some [], some [japanlandCountry, japanCountry]⟩

/-- C1: for every non-empty query against a loaded dataset exactly one match
tier fires (never a rejection guard); the keyword tiers decide first and
regardless of the dataset's names; when the keyword tiers fail, an exact
country-name match wins before the substring tiers; on the sample dataset
the query "japan" resolves to the country named "Japan" and returns that
country's cities even though "Japanland", which contains "japan" as a
substring, comes first; and when all earlier tiers fail the substring
country tier, the city tier and the no-match tier fire in that order. -/
theorem tier_precedence :
    (∀ (raw : List Char) (d : Dataset), raw ≠ [] →
      isTierResult (resolveSearch raw (some d)) = true)
    ∧ (∀ (raw : List Char) (d : Dataset),
        normalizeKeyword raw = "beach".data →
          resolveSearch raw (some d) = .beachesTier (d.beaches.getD []))
    ∧ (∀ (raw : List Char) (d : Dataset),
        normalizeKeyword raw = "temple".data →
          resolveSearch raw (some d) = .templesTier (d.temples.getD []))
    ∧ (∀ (raw : List Char) (d : Dataset),
        normalizeKeyword raw = "country".data →
          resolveSearch raw (some d) =
            .countriesTier (flattenAllCities (d.countries.getD []))
              (getTimeZonesForCountries ((d.countries.getD []).map (fun c => c.name))))
    ∧ (∀ (raw : List Char) (d : Dataset) (c : Country), raw ≠ [] →
        normalizeKeyword raw ≠ "beach".data →
        normalizeKeyword raw ≠ "temple".data →
        normalizeKeyword raw ≠ "country".data →
        findExactCountry d (normalizeKeyword raw) = some c →
          resolveSearch raw (some d) = .exactCountryTier c)
    ∧ (∀ (raw : List Char) (d : Dataset) (c : Country), raw ≠ [] →
        normalizeKeyword raw ≠ "beach".data →
        normalizeKeyword raw ≠ "temple".data →
        normalizeKeyword raw ≠ "country".data →
        findExactCountry d (normalizeKeyword raw) = none →
        findSubstrCountry d (normalizeKeyword raw) = some c →
          resolveSearch raw (some d) = .substrCountryTier c)
    ∧ (∀ (raw : List Char) (d : Dataset), raw ≠ [] →
        normalizeKeyword raw ≠ "beach".data →
        normalizeKeyword raw ≠ "temple".data →
        normalizeKeyword raw ≠ "country".data →
        findExactCountry d (normalizeKeyword raw) = none →
        findSubstrCountry d (normalizeKeyword raw) = none →
          resolveSearch raw (some d) =
            (if (matchedCityList d (normalizeKeyword raw)).isEmpty then .noMatchTier
             else .cityTier (matchedCityList d (normalizeKeyword raw))))
    ∧ resolveSearch "japan".data (some sampleDataset) = .exactCountryTier japanCountry
    ∧ (handleSearch "japan".data ⟨some sampleDataset, initClock, initUI⟩).ui.results =
        (japanCountry.cities.getD []).map (mkCard "Japan".data) := by
  have hne : ∀ raw : List Char, raw ≠ [] → raw.isEmpty = false := by
    intro raw h
    cases hr : raw with
    | nil => exact absurd hr h
    | cons a l => rfl
  refine ⟨?_, ?_, ?_, ?_, ?_, ?_, ?_, ?_, ?_⟩
  · intro raw d h
    exact isTierResult_resolveSearch raw d (hne raw h)
  · intro raw d hb
    exact resolveSearch_beachKw raw d hb
  · intro raw d hb
    exact resolveSearch_templeKw raw d hb
  · intro raw d hb
    exact resolveSearch_countryKw raw d hb
  · intro raw d c h h1 h2 h3 hf
    exact resolveSearch_exactC raw d c h1 h2 h3 (hne raw h) hf
  · intro raw d c h h1 h2 h3 hfe hf
    exact resolveSearch_substrC raw d c h1 h2 h3 (hne raw h) hfe hf
  · intro raw d h h1 h2 h3 hfe hfs
    cases hm : (matchedCityList d (normalizeKeyword raw)).isEmpty with
    | false =>
        rw [if_neg Bool.false_ne_true]
        exact resolveSearch_cityT raw d h1 h2 h3 (hne raw h) hfe hfs hm
    | true =>
        rw [if_pos rfl]
        exact resolveSearch_noMatch raw d h1 h2 h3 (hne raw h) hfe hfs hm
  · decide
  · decide

/-- Witness for C1 at the concrete query "japan" on the sample dataset. -/
theorem tier_precedence_witness :
    isTierResult (resolveSearch "japan".data (some sampleDataset)) = true
    ∧ resolveSearch "japan".data (some sampleDataset) = .exactCountryTier japanCountry :=
  ⟨tier_precedence.1 "japan".data sampleDataset (by decide),
   tier_precedence.2.2.2.2.1 "japan".data sampleDataset japanCountry (by decide)
     (by decide) (by decide) (by decide) (by decide)⟩

theorem renderRecommendations_results (items : List Place) (b : List Char) (s : AppState) :
    (renderRecommendations items b s).ui.results =
      if items.isEmpty then []
      else (items.take (max 2 (min items.length 6))).map (mkCard b) := by
  unfold renderRecommendations
  split <;> simp_all

/-- C4: every raw query normalizing to "beach" (such as "beach", "beaches",
"Beach " in any case and padding) selects the beaches tier and returns
exactly the dataset's beaches list, rendered under the label "Beaches"; and
normalization lowercases, strips non-word non-space non-hyphen characters,
trims, and maps exactly "beaches"→"beach", "temples"→"temple",
"countries"→"country". -/
theorem beach_keyword_tier :
    (∀ (raw : List Char) (d : Dataset),
      normalizeKeyword (trimChars raw) = "beach".data →
        resolveSearch (trimChars raw) (some d) = .beachesTier (d.beaches.getD []))
    ∧ (∀ (raw : List Char) (s : AppState) (d : Dataset), s.apiData = some d →
        normalizeKeyword (trimChars raw) = "beach".data →
          (handleSearch raw s).ui.header =
            some (trimChars raw, (d.beaches.getD []).length, some "Beaches".data)
          ∧ (handleSearch raw s).ui.results =
              ((d.beaches.getD []).take
                (max 2 (min (d.beaches.getD []).length 6))).map (mkCard "Beaches".data))
    ∧ normalizeKeyword "beach".data = "beach".data
    ∧ normalizeKeyword "beaches".data = "beach".data
    ∧ normalizeKeyword "Beach ".data = "beach".data
    ∧ normalizeKeyword " BEACHES  ".data = "beach".data
    ∧ normalizeKeyword "temples".data = "temple".data
    ∧ normalizeKeyword "countries".data = "country".data := by
  refine ⟨?_, ?_, by decide, by decide, by decide, by decide, by decide, by decide⟩
  · intro raw d hb
    exact resolveSearch_beachKw (trimChars raw) d hb
  · intro raw s d hdata hb
    have hne : trimChars raw ≠ [] := by
      intro h
      rw [h] at hb
      exact absurd hb (by decide)
    have hres := resolveSearch_beachKw (trimChars raw) d hb
    have hh : handleSearch raw s =
        renderRecommendations (d.beaches.getD []) "Beaches".data
          (setResultsHeader (some (trimChars raw)) (d.beaches.getD []).length
            (some "Beaches".data) (setTimeBox none (stopClock s))) := by
      show applySearch (trimChars raw) (resolveSearch (trimChars raw) s.apiData) s = _
      rw [hdata, hres]
      rfl
    constructor
    · rw [hh, renderRecommendations_header]
      exact setResultsHeader_some_header _ _ _ _ hne
    · rw [hh, renderRecommendations_results]
      cases hbe : (d.beaches.getD []).isEmpty with
      | true =>
          rw [if_pos rfl]
          rw [List.isEmpty_iff.mp hbe]
          rfl
      | false =>
          rw [if_neg Bool.false_ne_true]

/-- Witness for C4 at the concrete query " BEACHES  " on the sample dataset. -/
theorem beach_keyword_tier_witness :
    resolveSearch (trimChars " BEACHES  ".data) (some sampleDataset) =
      .beachesTier [beachA, beachB]
    ∧ (handleSearch " BEACHES  ".data ⟨some sampleDataset, initClock, initUI⟩).ui.header =
        some ("BEACHES".data, 2, some "Beaches".data) :=
  ⟨beach_keyword_tier.1 " BEACHES  ".data sampleDataset (by decide),
   (beach_keyword_tier.2.1 " BEACHES  ".data ⟨some sampleDataset, initClock, initUI⟩
      sampleDataset rfl (by decide)).1⟩

/-- The dataset with each absent top-level field replaced by the empty array
it defaults to. -/
def fillDataset (d : Dataset) : Dataset :=
  ⟨some (d.beaches.getD []), some (d.temples.getD []), some (d.countries.getD [])⟩

/-- States agreeing on everything the DOM and timer can see. -/
def UiClockEq (s t : AppState) : Prop :=
  s.clock = t.clock ∧ s.ui = t.ui

theorem ucEq_stopClock {s t : AppState} (h : UiClockEq s t) :
    UiClockEq (stopClock s) (stopClock t) := by
  unfold stopClock
  rw [h.1]
  split
  · exact ⟨rfl, h.2⟩
  · exact h

theorem ucEq_setTimeBox (m : Option TimeMsg) {s t : AppState} (h : UiClockEq s t) :
    UiClockEq (setTimeBox m s) (setTimeBox m t) :=
  ⟨h.1, by unfold setTimeBox; simp only [h.2]⟩

theorem ucEq_setResultsHeader (q : Option (List Char)) (n : Nat)
    (lab : Option (List Char)) {s t : AppState} (h : UiClockEq s t) :
    UiClockEq (setResultsHeader q n lab s) (setResultsHeader q n lab t) := by
  unfold setResultsHeader
  split
  · exact ⟨h.1, by simp only [h.2]⟩
  · exact ⟨h.1, by simp only [h.2]⟩

theorem ucEq_renderEmpty (m : List Char) {s t : AppState} (h : UiClockEq s t) :
    UiClockEq (renderEmpty m s) (renderEmpty m t) :=
  ⟨h.1, by unfold renderEmpty; simp only [h.2]⟩

theorem ucEq_renderRecommendations (items : List Place) (b : List Char)
    {s t : AppState} (h : UiClockEq s t) :
    UiClockEq (renderRecommendations items b s) (renderRecommendations items b t) := by
  unfold renderRecommendations renderEmpty
  split
  · exact ⟨h.1, by simp only [h.2]⟩
  · exact ⟨h.1, by simp only [h.2]⟩

theorem ucEq_installInterval {s t : AppState} (h : UiClockEq s t) :
    UiClockEq (installInterval s) (installInterval t) :=
  ⟨by unfold installInterval; simp only [h.1], by unfold installInterval; exact h.2⟩

theorem ucEq_updateSingleClock (n : Option (List Char)) (tz : List Char)
    {s t : AppState} (h : UiClockEq s t) :
    UiClockEq (updateSingleClock n tz s) (updateSingleClock n tz t) :=
  ucEq_setTimeBox _ h

theorem ucEq_updateMultiClock (l : List (List Char × List Char))
    {s t : AppState} (h : UiClockEq s t) :
    UiClockEq (updateMultiClock l s) (updateMultiClock l t) :=
  ucEq_setTimeBox _ h

theorem ucEq_startSingleClock (n : Option (List Char)) (tz : Option (List Char))
    {s t : AppState} (h : UiClockEq s t) :
    UiClockEq (startSingleClock n tz s) (startSingleClock n tz t) := by
  unfold startSingleClock
  split
  · exact ucEq_installInterval (ucEq_updateSingleClock _ _ (ucEq_stopClock h))
  · exact ucEq_setTimeBox _ (ucEq_stopClock h)

theorem ucEq_startMultiClock (l : List (List Char × List Char))
    {s t : AppState} (h : UiClockEq s t) :
    UiClockEq (startMultiClock l s) (startMultiClock l t) := by
  unfold startMultiClock
  split
  · exact ucEq_setTimeBox _ (ucEq_stopClock h)
  · exact ucEq_installInterval (ucEq_updateMultiClock _ (ucEq_stopClock h))

theorem ucEq_applySearch (raw : List Char) (r : SearchResult)
    {s t : AppState} (h : UiClockEq s t) :
    UiClockEq (applySearch raw r s) (applySearch raw r t) := by
  cases r <;> simp only [applySearch]
  case emptyQuery =>
      exact ucEq_renderEmpty _ (ucEq_setResultsHeader _ _ _
        (ucEq_setTimeBox _ (ucEq_stopClock h)))
  case stillLoading =>
      exact ucEq_renderEmpty _ (ucEq_setResultsHeader _ _ _
        (ucEq_setTimeBox _ (ucEq_stopClock h)))
  case beachesTier l =>
      exact ucEq_renderRecommendations _ _ (ucEq_setResultsHeader _ _ _
        (ucEq_setTimeBox _ (ucEq_stopClock h)))
  case templesTier l =>
      exact ucEq_renderRecommendations _ _ (ucEq_setResultsHeader _ _ _
        (ucEq_setTimeBox _ (ucEq_stopClock h)))
  case countriesTier a l =>
      exact ucEq_startMultiClock _ (ucEq_renderRecommendations _ _
        (ucEq_setResultsHeader _ _ _ h))
  case exactCountryTier c =>
      exact ucEq_startSingleClock _ _ (ucEq_renderRecommendations _ _
        (ucEq_setResultsHeader _ _ _ h))
  case substrCountryTier c =>
      exact ucEq_startSingleClock _ _ (ucEq_renderRecommendations _ _
        (ucEq_setResultsHeader _ _ _ h))
  case cityTier m =>
      split
      · exact ucEq_startSingleClock _ _ (ucEq_renderRecommendations _ _
          (ucEq_setResultsHeader _ _ _ h))
      · exact ucEq_setTimeBox _ (ucEq_stopClock (ucEq_renderRecommendations _ _
          (ucEq_setResultsHeader _ _ _ h)))
  case noMatchTier =>
      exact ucEq_renderEmpty _ (ucEq_setResultsHeader _ _ _
        (ucEq_setTimeBox _ (ucEq_stopClock h)))

/-- C8: a dataset with absent `beaches`, `temples` or `countries` fields
behaves exactly as the dataset with those fields present and empty: every
search resolves to the same tier and produces the same DOM and clock state,
and in particular the keyword search against the all-absent dataset
completes with an empty result list rather than an error. -/
theorem absent_fields_default_empty :
    (∀ (raw : List Char) (d : Dataset),
      resolveSearch raw (some d) = resolveSearch raw (some (fillDataset d)))
    ∧ (∀ (input : List Char) (d : Dataset) (c : ClockState) (u : UI),
        (handleSearch input ⟨some d, c, u⟩).ui =
          (handleSearch input ⟨some (fillDataset d), c, u⟩).ui
        ∧ (handleSearch input ⟨some d, c, u⟩).clock =
          (handleSearch input ⟨some (fillDataset d), c, u⟩).clock)
    ∧ resolveSearch "beach".data (some ⟨none, none, none⟩) = .beachesTier []
    ∧ resolveSearch "country".data (some ⟨none, none, none⟩) = .countriesTier [] []
    ∧ flattenAllCities ((⟨none, none, none⟩ : Dataset).countries.getD []) = []
    ∧ resolveSearch "anything".data (some ⟨none, none, none⟩) = .noMatchTier := by
  have hres : ∀ (raw : List Char) (d : Dataset),
      resolveSearch raw (some d) = resolveSearch raw (some (fillDataset d)) := by
    intro raw d
    simp only [resolveSearch, fillDataset, findExactCountry, findSubstrCountry,
      matchedCityList, Option.getD_some]
  refine ⟨hres, ?_, by decide, by decide, by decide, by decide⟩
  intro input d c u
  have h1 : resolveSearch (trimChars input) (some d) =
      resolveSearch (trimChars input) (some (fillDataset d)) := hres (trimChars input) d
  show ((applySearch (trimChars input)
      (resolveSearch (trimChars input) (some d)) ⟨some d, c, u⟩).ui = _)
    ∧ ((applySearch (trimChars input)
      (resolveSearch (trimChars input) (some d)) ⟨some d, c, u⟩).clock = _)
  rw [h1]
  have h2 := ucEq_applySearch (trimChars input)
    (resolveSearch (trimChars input) (some (fillDataset d)))
    (show UiClockEq ⟨some d, c, u⟩ ⟨some (fillDataset d), c, u⟩ from ⟨rfl, rfl⟩)
  exact ⟨h2.2, h2.1⟩

/-- Witness for C8 at the all-absent dataset and the query "beach". -/
theorem absent_fields_default_empty_witness :
    resolveSearch "beach".data (some (⟨none, none, none⟩ : Dataset)) =
      resolveSearch "beach".data (some (fillDataset ⟨none, none, none⟩))
    ∧ (handleSearch "beach".data ⟨some (⟨none, none, none⟩ : Dataset), initClock, initUI⟩).ui =
        (handleSearch "beach".data
          ⟨some (fillDataset ⟨none, none, none⟩), initClock, initUI⟩).ui :=
  ⟨absent_fields_default_empty.1 "beach".data ⟨none, none, none⟩,
   (absent_fields_default_empty.2.1 "beach".data ⟨none, none, none⟩ initClock initUI).1⟩

/-- Sample city whose display name has an empty trailing comma segment. -/
def kyotoTrailing : Place := ⟨some "Kyoto,".data, none, none⟩

/-- Sample dataset whose only matching city has an empty trailing segment. -/
def trailingDataset : Dataset :=
  ⟨none, none, some [⟨some "Japan".data, some [kyotoTrailing]⟩]⟩

/-- C10: a city name whose trailing comma segment trims to nothing makes
`inferCountryFromCityName` return the empty string (not `null`), and the
city tier treats that falsy value as no inferred country: it stops the
clock and clears the time box instead of showing the not-configured
message. -/
theorem empty_inferred_country_clears_clock :
    (∀ name : List Char,
      2 ≤ (jsSplit ',' (trimChars name)).length →
      trimChars ((jsSplit ',' (trimChars name)).getLastD []) = [] →
        inferCountryFromCityName (some name) = some [])
    ∧ inferCountryFromCityName (some "Kyoto,".data) = some []
    ∧ (∀ (input : List Char) (st : AppState) (m : List Place),
        resolveSearch (trimChars input) st.apiData = .cityTier m →
        jsTruthyStr (inferCountryFromCityName (m.headD defaultPlace).name) = false →
          (handleSearch input st).ui.timeBox = none
          ∧ (ClockOK st.clock → (handleSearch input st).clock.handle = none)) := by
  refine ⟨?_, by decide, ?_⟩
  · intro name h1 h2
    unfold inferCountryFromCityName
    simp only [orEmpty, Option.getD_some]
    rw [if_neg (by omega), h2]
  · intro input st m hres hfalse
    have hh : handleSearch input st =
        setTimeBox none (stopClock (renderRecommendations m "City".data
          (setResultsHeader (some (trimChars input)) m.length
            (some "City Results".data) st))) := by
      show applySearch (trimChars input) (resolveSearch (trimChars input) st.apiData) st = _
      rw [hres]
      simp only [applySearch]
      rw [hfalse]
      rfl
    constructor
    · rw [hh]
      simp
    · intro hok
      rw [hh]
      have hok' : ClockOK (renderRecommendations m "City".data
          (setResultsHeader (some (trimChars input)) m.length
            (some "City Results".data) st)).clock := by
        simpa using hok
      simp [stopClock_clock _ hok']

/-- Witness for C10 at the concrete query "kyoto" against the dataset whose
matching city is named "Kyoto,". -/
theorem empty_inferred_country_clears_clock_witness :
    (handleSearch "kyoto".data ⟨some trailingDataset, initClock, initUI⟩).ui.timeBox = none
    ∧ (handleSearch "kyoto".data
        ⟨some trailingDataset, initClock, initUI⟩).clock.handle = none :=
  ⟨(empty_inferred_country_clears_clock.2.2 "kyoto".data
      ⟨some trailingDataset, initClock, initUI⟩ [kyotoTrailing] (by decide) (by decide)).1,
   (empty_inferred_country_clears_clock.2.2 "kyoto".data
      ⟨some trailingDataset, initClock, initUI⟩ [kyotoTrailing] (by decide) (by decide)).2
     (by decide)⟩

/-! ### Splitting and trimming lemmas for city-to-country inference -/

theorem jsSplit_ne_nil (sep : Char) (l : List Char) : jsSplit sep l ≠ [] := by
  cases l with
  | nil => simp [jsSplit]
  | cons c rest =>
      unfold jsSplit
      split
      · simp
      · split <;> simp

theorem jsSplit_cons_sep (sep c : Char) (rest : List Char) (hc : (c == sep) = true) :
    jsSplit sep (c :: rest) = [] :: jsSplit sep rest := by
  conv_lhs => unfold jsSplit
  rw [if_pos hc]

theorem jsSplit_cons_nosep (sep c : Char) (rest : List Char) (hc : (c == sep) = false) :
    jsSplit sep (c :: rest) =
      (c :: (jsSplit sep rest).headD []) :: (jsSplit sep rest).tail := by
  conv_lhs => unfold jsSplit
  rw [if_neg (show ¬((c == sep) = true) by simp [hc])]
  cases h : jsSplit sep rest with
  | nil => exact absurd h (jsSplit_ne_nil sep rest)
  | cons a t => rfl

theorem jsSplit_noSep (sep : Char) (ws : List Char)
    (h : ∀ c ∈ ws, (c == sep) = false) : jsSplit sep ws = [ws] := by
  induction ws with
  | nil => rfl
  | cons c rest ih =>
      have hc : (c == sep) = false := h c (List.mem_cons_self c rest)
      have ih' := ih (fun x hx => h x (List.mem_cons_of_mem c hx))
      rw [jsSplit_cons_nosep sep c rest hc, ih']
      rfl

theorem jsSplit_prepend_noSep (sep : Char) (ws l : List Char) (h0 : List Char)
    (t0 : List (List Char)) (hws : ∀ c ∈ ws, (c == sep) = false)
    (hl : jsSplit sep l = h0 :: t0) :
    jsSplit sep (ws ++ l) = (ws ++ h0) :: t0 := by
  induction ws with
  | nil => simpa using hl
  | cons c rest ih =>
      have hc : (c == sep) = false := hws c (List.mem_cons_self c rest)
      have ih' := ih (fun x hx => hws x (List.mem_cons_of_mem c hx))
      show jsSplit sep (c :: (rest ++ l)) = _
      rw [jsSplit_cons_nosep sep c (rest ++ l) hc, ih']
      rfl

theorem getLast?_cons_ne {α : Type} (a : α) (l : List α) (h : l ≠ []) :
    (a :: l).getLast? = l.getLast? := by
  cases l with
  | nil => exact absurd rfl h
  | cons b t => exact List.getLast?_cons_cons

theorem jsSplit_append_noSep (sep : Char) (ws : List Char)
    (hws : ∀ c ∈ ws, (c == sep) = false) :
    ∀ l : List Char,
      (jsSplit sep (l ++ ws)).length = (jsSplit sep l).length
      ∧ (jsSplit sep (l ++ ws)).getLast? = (jsSplit sep l).getLast?.map (· ++ ws) := by
  intro l
  induction l with
  | nil =>
      simp only [List.nil_append]
      rw [jsSplit_noSep sep ws hws]
      exact ⟨rfl, rfl⟩
  | cons c rest ih =>
      obtain ⟨ihlen, ihlast⟩ := ih
      simp only [List.cons_append]
      by_cases hc : (c == sep) = true
      · rw [jsSplit_cons_sep sep c (rest ++ ws) hc, jsSplit_cons_sep sep c rest hc]
        constructor
        · simpa using ihlen
        · rw [getLast?_cons_ne _ _ (jsSplit_ne_nil sep (rest ++ ws)),
            getLast?_cons_ne _ _ (jsSplit_ne_nil sep rest)]
          exact ihlast
      · have hc' : (c == sep) = false := by
          cases hx : (c == sep) with
          | true => exact absurd hx hc
          | false => rfl
        rw [jsSplit_cons_nosep sep c (rest ++ ws) hc', jsSplit_cons_nosep sep c rest hc']
        obtain ⟨h1, t1, hsplit1⟩ : ∃ h t, jsSplit sep (rest ++ ws) = h :: t := by
          cases hx : jsSplit sep (rest ++ ws) with
          | nil => exact absurd hx (jsSplit_ne_nil _ _)
          | cons a t => exact ⟨a, t, rfl⟩
        obtain ⟨h0, t0, hsplit0⟩ : ∃ h t, jsSplit sep rest = h :: t := by
          cases hx : jsSplit sep rest with
          | nil => exact absurd hx (jsSplit_ne_nil _ _)
          | cons a t => exact ⟨a, t, rfl⟩
        rw [hsplit1, hsplit0] at ihlen ihlast ⊢
        simp only [List.headD_cons, List.tail_cons]
        constructor
        · simpa using ihlen
        · cases t0 with
          | nil =>
              have ht1 : t1 = [] := by
                simp only [List.length_cons, List.length_nil] at ihlen
                exact List.length_eq_zero.mp (by omega)
              subst ht1
              simp only [List.getLast?_singleton, Option.map_some'] at ihlast ⊢
              injection ihlast with hh
              rw [hh]
              rfl
          | cons b t0' =>
              obtain ⟨b1, t1', rfl⟩ : ∃ b1 t1', t1 = b1 :: t1' := by
                cases t1 with
                | nil => simp at ihlen
                | cons b1 t1' => exact ⟨b1, t1', rfl⟩
              rw [List.getLast?_cons_cons, List.getLast?_cons_cons]
              rw [List.getLast?_cons_cons, List.getLast?_cons_cons] at ihlast
              exact ihlast

theorem dropWhile_append_of_all (p : Char → Bool) (a b : List Char)
    (h : ∀ c ∈ a, p c = true) : (a ++ b).dropWhile p = b.dropWhile p := by
  induction a with
  | nil => rfl
  | cons c rest ih =>
      rw [List.cons_append, List.dropWhile_cons,
        if_pos (h c (List.mem_cons_self c rest))]
      exact ih (fun x hx => h x (List.mem_cons_of_mem c hx))

theorem dropWhile_nil_of_all (p : Char → Bool) (a : List Char)
    (h : ∀ c ∈ a, p c = true) : a.dropWhile p = [] := by
  have := dropWhile_append_of_all p a [] h
  simpa using this

theorem ltrim_append_of_ne (x ws : List Char) (h : ltrim x ≠ []) :
    ltrim (x ++ ws) = ltrim x ++ ws := by
  unfold ltrim at *
  induction x with
  | nil => simp at h
  | cons c rest ih =>
      rw [List.cons_append, List.dropWhile_cons, List.dropWhile_cons]
      rw [List.dropWhile_cons] at h
      by_cases hc : isJsSpace c = true
      · rw [if_pos hc, if_pos hc]
        rw [if_pos hc] at h
        exact ih h
      · rw [if_neg hc, if_neg hc]
        rfl

theorem rtrim_append_spaces (x ws : List Char) (h : ∀ c ∈ ws, isJsSpace c = true) :
    rtrim (x ++ ws) = rtrim x := by
  unfold rtrim
  rw [List.reverse_append]
  rw [dropWhile_append_of_all isJsSpace ws.reverse x.reverse
    (fun c hc => h c (List.mem_reverse.mp hc))]

theorem ltrim_all_spaces (x : List Char) (hx : ltrim x = []) :
    ∀ c ∈ x, isJsSpace c = true := by
  intro c hcx
  have hdecomp := List.takeWhile_append_dropWhile isJsSpace x
  unfold ltrim at hx
  rw [hx, List.append_nil] at hdecomp
  exact List.mem_takeWhile_imp (hdecomp ▸ hcx)

theorem trimChars_append_spaces (x ws : List Char)
    (h : ∀ c ∈ ws, isJsSpace c = true) : trimChars (x ++ ws) = trimChars x := by
  unfold trimChars
  by_cases hx : ltrim x = []
  · have hall : ∀ c ∈ x ++ ws, isJsSpace c = true := by
      intro c hc
      rcases List.mem_append.mp hc with hc1 | hc2
      · exact ltrim_all_spaces x hx c hc1
      · exact h c hc2
    have : ltrim (x ++ ws) = [] := dropWhile_nil_of_all isJsSpace (x ++ ws) hall
    rw [this, hx]
  · rw [ltrim_append_of_ne x ws hx, rtrim_append_spaces _ ws h]

theorem rtrim_decomp (v : List Char) :
    v = rtrim v ++ (v.reverse.takeWhile isJsSpace).reverse := by
  unfold rtrim
  conv_lhs => rw [← List.reverse_reverse v,
    ← List.takeWhile_append_dropWhile isJsSpace v.reverse]
  rw [List.reverse_append]

theorem space_not_comma (c : Char) (h : isJsSpace c = true) : (c == ',') = false := by
  cases hx : (c == ',') with
  | false => rfl
  | true =>
      have hc : c = ',' := eq_of_beq hx
      subst hc
      exact absurd h (by decide)

/-- Modelled from the spec (section 4.5): split the display name on commas;
with fewer than two segments inference fails, otherwise the trailing
segment, trimmed, is the inferred country name. -/
def specInferCountry (cityName : List Char) : Option (List Char) :=
  let parts := jsSplit ',' cityName
  if parts.length < 2 then none
  else some (trimChars (parts.getLastD []))

theorem infer_refines_spec (s : List Char) :
    inferCountryFromCityName (some s) = specInferCountry s := by
  set t := trimChars s with ht
  set ws1 := s.takeWhile isJsSpace with hws1def
  set ws2 := ((ltrim s).reverse.takeWhile isJsSpace).reverse with hws2def
  have hdecomp : s = ws1 ++ (t ++ ws2) := by
    conv_lhs => rw [← List.takeWhile_append_dropWhile isJsSpace s]
    rw [ht]
    show ws1 ++ ltrim s = ws1 ++ (trimChars s ++ ws2)
    rw [hws2def]
    unfold trimChars
    exact congrArg (ws1 ++ ·) (rtrim_decomp (ltrim s))
  have hws1 : ∀ c ∈ ws1, (c == ',') = false := by
    intro c hc
    exact space_not_comma c (List.mem_takeWhile_imp hc)
  have hws2 : ∀ c ∈ ws2, (c == ',') = false := by
    intro c hc
    rw [hws2def] at hc
    exact space_not_comma c (List.mem_takeWhile_imp (List.mem_reverse.mp hc))
  obtain ⟨hlen2, hlast2⟩ := jsSplit_append_noSep ',' ws2 hws2 t
  obtain ⟨h', t', hsplit2⟩ : ∃ h t0, jsSplit ',' (t ++ ws2) = h :: t0 := by
    cases hx : jsSplit ',' (t ++ ws2) with
    | nil => exact absurd hx (jsSplit_ne_nil _ _)
    | cons a b => exact ⟨a, b, rfl⟩
  have hsplitS : jsSplit ',' s = (ws1 ++ h') :: t' := by
    conv_lhs => rw [hdecomp]
    exact jsSplit_prepend_noSep ',' ws1 (t ++ ws2) h' t' hws1 hsplit2
  have hlenS : (jsSplit ',' s).length = (jsSplit ',' t).length := by
    rw [hsplitS, ← hlen2, hsplit2]
    rfl
  unfold inferCountryFromCityName specInferCountry
  simp only [orEmpty, Option.getD_some, ← ht]
  rw [hlenS]
  by_cases hcase : (jsSplit ',' t).length < 2
  · rw [if_pos hcase, if_pos hcase]
  · rw [if_neg hcase, if_neg hcase]
    -- both branches return the trimmed last segment; relate them
    obtain ⟨g, hg⟩ : ∃ g, (jsSplit ',' t).getLast? = some g := by
      cases ho : (jsSplit ',' t).getLast? with
      | some g => exact ⟨g, rfl⟩
      | none =>
          rw [List.getLast?_eq_none_iff] at ho
          exact absurd ho (jsSplit_ne_nil _ _)
    have ht2 : t' ≠ [] := by
      intro hnil
      rw [hsplitS, hnil] at hlenS
      simp at hlenS
      omega
    have hlastS : (jsSplit ',' s).getLast? = some (g ++ ws2) := by
      rw [hsplitS, getLast?_cons_ne _ _ ht2, ← getLast?_cons_ne h' t' ht2, ← hsplit2, hlast2, hg]
      rfl
    rw [List.getLastD_eq_getLast?, List.getLastD_eq_getLast?, hlastS, hg]
    simp only [Option.getD_some]
    rw [trimChars_append_spaces g ws2 ?hsp]
    case hsp =>
      intro c hc
      rw [hws2def] at hc
      exact List.mem_takeWhile_imp (List.mem_reverse.mp hc)

/-- C7: city-to-country inference realizes the spec's contract exactly:
splitting the display name on commas, fewer than two segments yields no
country, otherwise the trailing segment trimmed of surrounding whitespace;
in particular "Kyoto, Japan" yields "Japan" and "Unknown" yields no
country. -/
theorem infer_country_contract :
    (∀ s : List Char, inferCountryFromCityName (some s) = specInferCountry s)
    ∧ inferCountryFromCityName (some "Kyoto, Japan".data) = some "Japan".data
    ∧ inferCountryFromCityName (some "Unknown".data) = none
    ∧ (∀ s : List Char, (jsSplit ',' s).length < 2 → specInferCountry s = none)
    ∧ (∀ s : List Char, 2 ≤ (jsSplit ',' s).length →
        specInferCountry s = some (trimChars ((jsSplit ',' s).getLastD []))) := by
  refine ⟨infer_refines_spec, by decide, by decide, ?_, ?_⟩
  · intro s h
    unfold specInferCountry
    rw [if_pos h]
  · intro s h
    unfold specInferCountry
    rw [if_neg (by omega)]

/-- Witness for C7 at the two concrete city names from the spec. -/
theorem infer_country_contract_witness :
    specInferCountry "Unknown".data = none
    ∧ specInferCountry "Kyoto, Japan".data =
        some (trimChars ((jsSplit ',' "Kyoto, Japan".data).getLastD [])) :=
  ⟨infer_country_contract.2.2.2.1 "Unknown".data (by decide),
   infer_country_contract.2.2.2.2 "Kyoto, Japan".data (by decide)⟩

/-! ### Idempotence of query normalization -/

theorem char_toNat_ofNat (n : Nat) (h : n.isValidChar) : (Char.ofNat n).toNat = n := by
  unfold Char.ofNat
  rw [dif_pos h]
  rfl

theorem jsToLower_idem (c : Char) : jsToLower (jsToLower c) = jsToLower c := by
  unfold jsToLower
  by_cases h : 65 ≤ c.toNat ∧ c.toNat ≤ 90
  · rw [if_pos h]
    have hv : (c.toNat + 32).isValidChar := Or.inl (by omega)
    have htn : (Char.ofNat (c.toNat + 32)).toNat = c.toNat + 32 := char_toNat_ofNat _ hv
    rw [if_neg (by rw [htn]; omega)]
  · rw [if_neg h, if_neg h]

theorem map_eq_self_of {α : Type} (l : List α) (f : α → α) (h : ∀ x ∈ l, f x = x) :
    l.map f = l := by
  induction l with
  | nil => rfl
  | cons a rest ih =>
      rw [List.map_cons, h a (List.mem_cons_self a rest),
        ih (fun x hx => h x (List.mem_cons_of_mem a hx))]

theorem dropWhile_idem (p : Char → Bool) (l : List Char) :
    (l.dropWhile p).dropWhile p = l.dropWhile p := by
  induction l with
  | nil => rfl
  | cons c rest ih =>
      rw [List.dropWhile_cons]
      by_cases hc : p c = true
      · rw [if_pos hc]
        exact ih
      · rw [if_neg hc, List.dropWhile_cons, if_neg hc]

theorem ltrim_idem (l : List Char) : ltrim (ltrim l) = ltrim l :=
  dropWhile_idem isJsSpace l

theorem rtrim_idem (l : List Char) : rtrim (rtrim l) = rtrim l := by
  unfold rtrim
  rw [List.reverse_reverse, dropWhile_idem]

theorem ltrim_rtrim_of_ltrim_eq (w : List Char) (h : ltrim w = w) :
    ltrim (rtrim w) = rtrim w := by
  cases hw : rtrim w with
  | nil => rfl
  | cons a rest =>
      have hdecomp := rtrim_decomp w
      rw [hw] at hdecomp
      cases hx : isJsSpace a with
      | false =>
          unfold ltrim
          rw [List.dropWhile_cons, if_neg (by rw [hx]; exact Bool.false_ne_true)]
      | true =>
          exfalso
          rw [hdecomp, List.cons_append] at h
          unfold ltrim at h
          rw [List.dropWhile_cons, if_pos hx] at h
          have h1 := congrArg List.length h
          have h2 : (List.dropWhile isJsSpace
              (rest ++ (w.reverse.takeWhile isJsSpace).reverse)).length ≤
              (rest ++ (w.reverse.takeWhile isJsSpace).reverse).length :=
            (List.dropWhile_sublist isJsSpace).length_le
          simp only [List.length_cons] at h1
          omega

theorem trimChars_idem (l : List Char) : trimChars (trimChars l) = trimChars l := by
  unfold trimChars
  rw [ltrim_rtrim_of_ltrim_eq (ltrim l) (ltrim_idem l), rtrim_idem]

theorem mem_trim_sub (c : Char) (l : List Char) (h : c ∈ trimChars l) : c ∈ l := by
  unfold trimChars rtrim ltrim at h
  have h1 : c ∈ (l.dropWhile isJsSpace).reverse.dropWhile isJsSpace :=
    List.mem_reverse.mp h
  have h2 : c ∈ (l.dropWhile isJsSpace).reverse :=
    (List.dropWhile_sublist isJsSpace).mem h1
  have h3 : c ∈ l.dropWhile isJsSpace := List.mem_reverse.mp h2
  exact (List.dropWhile_sublist isJsSpace).mem h3

/-- C9: query normalization is idempotent: normalizing an
already-normalized string leaves it unchanged. -/
theorem normalizeKeyword_idem (s : List Char) :
    normalizeKeyword (normalizeKeyword s) = normalizeKeyword s := by
  have hfix : ∀ r : List Char,
      (∀ c ∈ r, jsToLower c = c) → (∀ c ∈ r, keepChar c = true) →
      trimChars r = r →
      r ≠ "beaches".data → r ≠ "temples".data → r ≠ "countries".data →
      normalizeKeyword r = r := by
    intro r h1 h2 h3 hb ht hc
    simp only [normalizeKeyword, lowerStr]
    rw [map_eq_self_of r jsToLower h1, List.filter_eq_self.mpr h2, h3,
      if_neg hb, if_neg ht, if_neg hc]
  set u := (lowerStr s).filter keepChar with hu
  have hlow : ∀ c ∈ trimChars u, jsToLower c = c := by
    intro c hc
    have hcu : c ∈ u := mem_trim_sub c u hc
    have hmem : c ∈ lowerStr s := List.mem_of_mem_filter hcu
    obtain ⟨b, hb, hbe⟩ := List.mem_map.mp hmem
    rw [← hbe]
    exact jsToLower_idem b
  have hkeep : ∀ c ∈ trimChars u, keepChar c = true := by
    intro c hc
    exact List.of_mem_filter (mem_trim_sub c u hc)
  have htr : trimChars (trimChars u) = trimChars u := trimChars_idem u
  by_cases hb : trimChars u = "beaches".data
  · have hval : normalizeKeyword s = "beach".data := by
      simp only [normalizeKeyword, ← hu]
      rw [if_pos hb]
    rw [hval]
    decide
  · by_cases ht : trimChars u = "temples".data
    · have hval : normalizeKeyword s = "temple".data := by
        simp only [normalizeKeyword, ← hu]
        rw [if_neg hb, if_pos ht]
      rw [hval]
      decide
    · by_cases hc : trimChars u = "countries".data
      · have hval : normalizeKeyword s = "country".data := by
          simp only [normalizeKeyword, ← hu]
          rw [if_neg hb, if_neg ht, if_pos hc]
        rw [hval]
        decide
      · have hval : normalizeKeyword s = trimChars u := by
          simp only [normalizeKeyword, ← hu]
          rw [if_neg hb, if_neg ht, if_neg hc]
        rw [hval]
        exact hfix (trimChars u) hlow hkeep htr hb ht hc
